import Mathlib

/-!
Verification of the HydroRun storage layer (src/schema.ts).

The embedding models the `MemStorage` class as a pure state machine:
each JS `Map<number, R>` becomes a `List R` in insertion order (JS map
iteration order), keyed by the `id` field; `map.set` is `setAt`,
`map.delete` is `eraseKey`.  Timestamps (`new Date()`) are threaded as an
explicit `now : Nat` argument, in milliseconds since the epoch, with the
local server timezone taken as UTC.  JS stable `Array.prototype.sort`
with a numeric key comparator is `sortAscBy` / `sortDescBy` (insertion
sort, which is stable in the same sense).  JS truthiness defaulting
(`x || y`) is `jsOrElse`, where `0` and `""` are falsy.
-/

/-- Truthiness of a JS number modelled as `Int`: `0` is falsy. -/
def intTruthy (n : Int) : Bool := n != 0

/-- Truthiness of a JS string: the empty string is falsy. -/
def strTruthy (s : String) : Bool := s != ""

/-- Truthiness of a JS `boolean OR null` value: only `true` is truthy. -/
def optBoolTruthy : Option Bool → Bool
  | some b => b
  | none => false

/-- JS `x || y` on a nullable value `x` with fallback `y`: returns `x`
when present and truthy, else the fallback. -/
def jsOrElse (truthy : α → Bool) (x : Option α) (y : Option α) : Option α :=
  match x with
  | some v => if truthy v then some v else y
  | none => y

/-- JS `Map.set key r` on an association list keyed by `getId`: replace
the entry whose key is `key` if present, else append at the end. -/
def setAt (getId : α → Nat) (key : Nat) (r : α) : List α → List α
  | [] => [r]
  | x :: xs => if getId x = key then r :: xs else x :: setAt getId key r xs

/-- JS `Map.delete key` on an association list keyed by `getId`: remove
the first entry whose key is `key`. -/
def eraseKey (getId : α → Nat) (key : Nat) : List α → List α
  | [] => []
  | x :: xs => if getId x = key then xs else x :: eraseKey getId key xs

/-- Stable insertion into an ascending-by-key list, placing the new
element before the first element of equal key (as JS stable sort does
for an element that originally came earlier). -/
def insertAscBy (key : α → Nat) (a : α) : List α → List α
  | [] => [a]
  | b :: l => if key a ≤ key b then a :: b :: l else b :: insertAscBy key a l

/-- JS `arr.sort((a, b) => key a - key b)`: stable ascending sort. -/
def sortAscBy (key : α → Nat) : List α → List α
  | [] => []
  | b :: l => insertAscBy key b (sortAscBy key l)

/-- Stable insertion into a descending-by-key list. -/
def insertDescBy (key : α → Nat) (a : α) : List α → List α
  | [] => [a]
  | b :: l => if key b ≤ key a then a :: b :: l else b :: insertDescBy key a l

/-- JS `arr.sort((a, b) => key b - key a)`: stable descending sort. -/
def sortDescBy (key : α → Nat) : List α → List α
  | [] => []
  | b :: l => insertDescBy key b (sortDescBy key l)

/-- The local-midnight truncation `setHours(0,0,0,0)` of a millisecond
timestamp, with the local server timezone taken as UTC. -/
def startOfDay (d : Nat) : Nat := d / 86400000 * 86400000

/-- The end of day `setHours(23,59,59,999)` of a millisecond timestamp. -/
def endOfDay (d : Nat) : Nat := startOfDay d + 86399999

/-! ## Entity model (tables of src/schema.ts) -/

/-- Row of the `users` table. -/
structure User where
  id : Nat
  username : String
  password : String
  email : String
  profilePicture : Option String
  dailyWaterGoal : Option Int
  deriving Repr, DecidableEq

/-- Row of the `water_intake` table. -/
structure WaterIntake where
  id : Nat
  userId : Nat
  amount : Int
  timestamp : Nat
  deriving Repr, DecidableEq

/-- Row of the `activities` table. -/
structure Activity where
  id : Nat
  userId : Nat
  title : String
  type : String
  distance : Int
  duration : Int
  elevationGain : Option Int
  weather : Option String
  temperature : Option Int
  timestamp : Nat
  isPublic : Option Bool
  deriving Repr, DecidableEq

/-- Row of the `routes` table. -/
structure Route where
  id : Nat
  activityId : Nat
  coordinates : String
  deriving Repr, DecidableEq

/-- Row of the `posts` table. -/
structure Post where
  id : Nat
  userId : Nat
  activityId : Option Nat
  content : String
  imagePath : Option String
  timestamp : Nat
  deriving Repr, DecidableEq

/-- Row of the `likes` table. -/
structure Like where
  id : Nat
  userId : Nat
  postId : Nat
  deriving Repr, DecidableEq

/-- Row of the `comments` table. -/
structure Comment where
  id : Nat
  userId : Nat
  postId : Nat
  content : String
  timestamp : Nat
  deriving Repr, DecidableEq

/-- Insert payload `InsertUser` (optional fields may be absent or null,
both modelled as `none` since both are falsy under `x || y`). -/
structure InsertUser where
  username : String
  password : String
  email : String
  profilePicture : Option String
  dailyWaterGoal : Option Int
  deriving Repr, DecidableEq

/-- Insert payload `InsertWaterIntake`. -/
structure InsertWaterIntake where
  userId : Nat
  amount : Int
  deriving Repr, DecidableEq

/-- Insert payload `InsertActivity`. -/
structure InsertActivity where
  userId : Nat
  title : String
  type : String
  distance : Int
  duration : Int
  elevationGain : Option Int
  weather : Option String
  temperature : Option Int
  isPublic : Option Bool
  deriving Repr, DecidableEq

/-- Insert payload `InsertRoute`. -/
structure InsertRoute where
  activityId : Nat
  coordinates : String
  deriving Repr, DecidableEq

/-- Insert payload `InsertPost`. -/
structure InsertPost where
  userId : Nat
  activityId : Option Nat
  content : String
  imagePath : Option String
  deriving Repr, DecidableEq

/-- Insert payload `InsertLike`. -/
structure InsertLike where
  userId : Nat
  postId : Nat
  deriving Repr, DecidableEq

/-- Insert payload `InsertComment`. -/
structure InsertComment where
  userId : Nat
  postId : Nat
  content : String
  deriving Repr, DecidableEq

/-- The `Partial<User>` argument of `updateUser`: each field may be
absent (`none`) or present with a value that overrides the stored one. -/
structure UserUpdate where
  id : Option Nat := none
  username : Option String := none
  password : Option String := none
  email : Option String := none
  profilePicture : Option (Option String) := none
  dailyWaterGoal : Option (Option Int) := none
  deriving Repr, DecidableEq

/-- The object spread `{ ...user, ...data }` for a `Partial<User>`. -/
def mergeUser (u : User) (p : UserUpdate) : User :=
  { id := p.id.getD u.id
    username := p.username.getD u.username
    password := p.password.getD u.password
    email := p.email.getD u.email
    profilePicture := p.profilePicture.getD u.profilePicture
    dailyWaterGoal := p.dailyWaterGoal.getD u.dailyWaterGoal }

/-! ## The in-memory store (class MemStorage) -/

/-- State of a `MemStorage` instance: one insertion-ordered table and one
id counter per entity type. -/
structure MemStorage where
  users : List User
  waterIntakes : List WaterIntake
  activities : List Activity
  routes : List Route
  posts : List Post
  likes : List Like
  comments : List Comment
  userIdCounter : Nat
  waterIntakeIdCounter : Nat
  activityIdCounter : Nat
  routeIdCounter : Nat
  postIdCounter : Nat
  likeIdCounter : Nat
  commentIdCounter : Nat
  deriving Repr, DecidableEq

namespace MemStorage

/-- `getUser(id)`. -/
def getUser (s : MemStorage) (id : Nat) : Option User :=
  s.users.find? (fun u => decide (u.id = id))

/-- `getUserByUsername(username)`. -/
def getUserByUsername (s : MemStorage) (username : String) : Option User :=
  s.users.find? (fun u => decide (u.username = username))

/-- `createUser(insertUser)`: assigns the next id, applies the
`|| null` / `|| 2000` defaulting, and stores the record. -/
def createUser (s : MemStorage) (insertUser : InsertUser) : User × MemStorage :=
  let id := s.userIdCounter
  let user : User :=
    { id := id
      username := insertUser.username
      password := insertUser.password
      email := insertUser.email
      profilePicture := jsOrElse strTruthy insertUser.profilePicture none
      dailyWaterGoal := jsOrElse intTruthy insertUser.dailyWaterGoal (some 2000) }
  (user, { s with users := setAt User.id id user s.users, userIdCounter := id + 1 })

/-- `updateUser(id, data)`: returns `none` when the user is absent, else
stores and returns `{ ...user, ...data }` under the key `id`. -/
def updateUser (s : MemStorage) (id : Nat) (data : UserUpdate) : Option User × MemStorage :=
  match s.getUser id with
  | none => (none, s)
  | some user =>
    let updatedUser := mergeUser user data
    (some updatedUser, { s with users := setAt User.id id updatedUser s.users })

/-- `addWaterIntake(intake)` at server time `now`. -/
def addWaterIntake (s : MemStorage) (intake : InsertWaterIntake) (now : Nat) :
    WaterIntake × MemStorage :=
  let id := s.waterIntakeIdCounter
  let w : WaterIntake := { id := id, userId := intake.userId, amount := intake.amount, timestamp := now }
  (w, { s with waterIntakes := setAt WaterIntake.id id w s.waterIntakes,
               waterIntakeIdCounter := id + 1 })

/-- `getWaterIntakeByUserId(userId)`: filter then sort newest-first. -/
def getWaterIntakeByUserId (s : MemStorage) (userId : Nat) : List WaterIntake :=
  sortDescBy WaterIntake.timestamp
    (s.waterIntakes.filter (fun w => decide (w.userId = userId)))

/-- `getWaterIntakeByUserIdAndDate(userId, date)`: filter to the local
calendar day of `date` (inclusive bounds), sort oldest-first. -/
def getWaterIntakeByUserIdAndDate (s : MemStorage) (userId : Nat) (date : Nat) :
    List WaterIntake :=
  sortAscBy WaterIntake.timestamp
    (s.waterIntakes.filter (fun w =>
      decide (w.userId = userId ∧ startOfDay date ≤ w.timestamp ∧ w.timestamp ≤ endOfDay date)))

/-- `createActivity(activity)` at server time `now`, with `|| null`
defaulting on the optional fields and `?? true` on `isPublic`. -/
def createActivity (s : MemStorage) (activity : InsertActivity) (now : Nat) :
    Activity × MemStorage :=
  let id := s.activityIdCounter
  let newActivity : Activity :=
    { id := id
      userId := activity.userId
      title := activity.title
      type := activity.type
      distance := activity.distance
      duration := activity.duration
      elevationGain := jsOrElse intTruthy activity.elevationGain none
      weather := jsOrElse strTruthy activity.weather none
      temperature := jsOrElse intTruthy activity.temperature none
      timestamp := now
      isPublic := some (activity.isPublic.getD true) }
  (newActivity, { s with activities := setAt Activity.id id newActivity s.activities,
                         activityIdCounter := id + 1 })

/-- `getActivityById(id)`. -/
def getActivityById (s : MemStorage) (id : Nat) : Option Activity :=
  s.activities.find? (fun a => decide (a.id = id))

/-- `getActivitiesByUserId(userId)`: filter then sort newest-first. -/
def getActivitiesByUserId (s : MemStorage) (userId : Nat) : List Activity :=
  sortDescBy Activity.timestamp
    (s.activities.filter (fun a => decide (a.userId = userId)))

/-- `getRecentActivities(limit)`: public activities newest-first,
truncated to `limit`. -/
def getRecentActivities (s : MemStorage) (limit : Nat) : List Activity :=
  (sortDescBy Activity.timestamp
    (s.activities.filter (fun a => optBoolTruthy a.isPublic))).take limit

/-- `getPublicActivitiesNearby(lat, lng, radiusKm)`: the source stub
ignores its arguments and returns `getRecentActivities(10)`. -/
def getPublicActivitiesNearby (s : MemStorage) (_lat _lng _radiusKm : Int) : List Activity :=
  s.getRecentActivities 10

/-- `saveRoute(route)`. -/
def saveRoute (s : MemStorage) (route : InsertRoute) : Route × MemStorage :=
  let id := s.routeIdCounter
  let newRoute : Route := { id := id, activityId := route.activityId, coordinates := route.coordinates }
  (newRoute, { s with routes := setAt Route.id id newRoute s.routes, routeIdCounter := id + 1 })

/-- `getRouteByActivityId(activityId)`: first match. -/
def getRouteByActivityId (s : MemStorage) (activityId : Nat) : Option Route :=
  s.routes.find? (fun r => decide (r.activityId = activityId))

/-- `createPost(post)` at server time `now`, with `|| null` defaulting
on `activityId` and `imagePath`. -/
def createPost (s : MemStorage) (post : InsertPost) (now : Nat) : Post × MemStorage :=
  let id := s.postIdCounter
  let newPost : Post :=
    { id := id
      userId := post.userId
      activityId := post.activityId
      content := post.content
      imagePath := jsOrElse strTruthy post.imagePath none
      timestamp := now }
  (newPost, { s with posts := setAt Post.id id newPost s.posts, postIdCounter := id + 1 })

/-- `getPosts(limit, offset)`: all posts newest-first, then the slice
`[offset, offset + limit)`. -/
def getPosts (s : MemStorage) (limit offset : Nat) : List Post :=
  ((sortDescBy Post.timestamp s.posts).drop offset).take limit

/-- `getPostsByUserId(userId)`: filter then sort newest-first. -/
def getPostsByUserId (s : MemStorage) (userId : Nat) : List Post :=
  sortDescBy Post.timestamp (s.posts.filter (fun p => decide (p.userId = userId)))

/-- `addLike(like)`: returns the existing Like for the pair when there
is one, otherwise creates a fresh one. -/
def addLike (s : MemStorage) (like : InsertLike) : Like × MemStorage :=
  match s.likes.find? (fun l => decide (l.userId = like.userId ∧ l.postId = like.postId)) with
  | some existingLike => (existingLike, s)
  | none =>
    let id := s.likeIdCounter
    let newLike : Like := { id := id, userId := like.userId, postId := like.postId }
    (newLike, { s with likes := setAt Like.id id newLike s.likes, likeIdCounter := id + 1 })

/-- `removeLike(userId, postId)`: deletes the first matching Like when
present, otherwise leaves the store unchanged. -/
def removeLike (s : MemStorage) (userId postId : Nat) : MemStorage :=
  match s.likes.find? (fun l => decide (l.userId = userId ∧ l.postId = postId)) with
  | none => s
  | some likeToRemove => { s with likes := eraseKey Like.id likeToRemove.id s.likes }

/-- `getLikesByPostId(postId)`: unsorted filter. -/
def getLikesByPostId (s : MemStorage) (postId : Nat) : List Like :=
  s.likes.filter (fun l => decide (l.postId = postId))

/-- `addComment(comment)` at server time `now`. -/
def addComment (s : MemStorage) (comment : InsertComment) (now : Nat) : Comment × MemStorage :=
  let id := s.commentIdCounter
  let newComment : Comment :=
    { id := id, userId := comment.userId, postId := comment.postId,
      content := comment.content, timestamp := now }
  (newComment, { s with comments := setAt Comment.id id newComment s.comments,
                        commentIdCounter := id + 1 })

/-- `getCommentsByPostId(postId)`: filter then sort oldest-first. -/
def getCommentsByPostId (s : MemStorage) (postId : Nat) : List Comment :=
  sortAscBy Comment.timestamp (s.comments.filter (fun c => decide (c.postId = postId)))

end MemStorage

/-- The store with all tables empty and every counter at 1, before the
constructor seeds the test user. -/
def emptyStorage : MemStorage :=
  { users := [], waterIntakes := [], activities := [], routes := [], posts := [],
    likes := [], comments := [],
    userIdCounter := 1, waterIntakeIdCounter := 1, activityIdCounter := 1,
    routeIdCounter := 1, postIdCounter := 1, likeIdCounter := 1, commentIdCounter := 1 }

/-- The seed insert the `MemStorage` constructor performs. -/
def seedUserInsert : InsertUser :=
  { username := "testuser", password := "password", email := "test@example.com",
    profilePicture := some "", dailyWaterGoal := some 2000 }

/-- A freshly constructed `MemStorage`: empty tables plus the seed
`createUser` call of the constructor. -/
def initStorage : MemStorage := (emptyStorage.createUser seedUserInsert).2

/-! ## Lemmas about the JS map embedding -/

theorem mem_setAt_self (getId : α → Nat) (key : Nat) (r : α) (l : List α) :
    r ∈ setAt getId key r l := by
  induction l with
  | nil => simp [setAt]
  | cons x xs ih =>
    simp only [setAt]
    by_cases h : getId x = key <;> simp [h, ih]

theorem mem_of_mem_setAt {getId : α → Nat} {key : Nat} {r x : α} {l : List α}
    (h : x ∈ setAt getId key r l) : x = r ∨ x ∈ l := by
  induction l with
  | nil => simpa [setAt] using h
  | cons y ys ih =>
    simp only [setAt] at h
    by_cases hy : getId y = key
    · rw [if_pos hy] at h
      rcases List.mem_cons.mp h with h | h
      · exact Or.inl h
      · exact Or.inr (List.mem_cons_of_mem _ h)
    · rw [if_neg hy] at h
      rcases List.mem_cons.mp h with h | h
      · exact Or.inr (by simp [h])
      · rcases ih h with h' | h'
        · exact Or.inl h'
        · exact Or.inr (List.mem_cons_of_mem _ h')

theorem mem_setAt_of_ne {getId : α → Nat} {key : Nat} {r x : α} (l : List α)
    (hr : getId r = key) (hx : getId x ≠ key) : x ∈ setAt getId key r l ↔ x ∈ l := by
  induction l with
  | nil =>
    simp only [setAt, List.mem_singleton, List.not_mem_nil, iff_false]
    intro h
    exact hx (h ▸ hr)
  | cons y ys ih =>
    simp only [setAt]
    by_cases hy : getId y = key
    · rw [if_pos hy]
      constructor
      · intro h
        rcases List.mem_cons.mp h with h | h
        · exact absurd (h ▸ hr) hx
        · exact List.mem_cons_of_mem _ h
      · intro h
        rcases List.mem_cons.mp h with h | h
        · exact absurd (h ▸ hy) hx
        · exact List.mem_cons_of_mem _ h
    · rw [if_neg hy]
      simp [ih]

theorem setAt_eq_append {getId : α → Nat} {key : Nat} (r : α) {l : List α}
    (h : ∀ x ∈ l, getId x ≠ key) : setAt getId key r l = l ++ [r] := by
  induction l with
  | nil => rfl
  | cons y ys ih =>
    simp only [setAt]
    rw [if_neg (h y (List.mem_cons_self y ys))]
    rw [ih (fun x hx => h x (List.mem_cons_of_mem _ hx))]
    rfl

theorem find?_cons_eq (p : α → Bool) (a : α) (l : List α) :
    (a :: l).find? p = if p a then some a else l.find? p := by
  cases h : p a <;> simp [List.find?_cons, h]

theorem find?_setAt_ne {getId : α → Nat} {key k' : Nat} (r : α) (l : List α)
    (hr : getId r = key) (hne : k' ≠ key) :
    (setAt getId key r l).find? (fun x => decide (getId x = k')) =
      l.find? (fun x => decide (getId x = k')) := by
  have hgr : (decide (getId r = k')) = false :=
    decide_eq_false (by rw [hr]; exact fun h => hne h.symm)
  induction l with
  | nil =>
    simp [setAt, find?_cons_eq, hgr]
  | cons y ys ih =>
    simp only [setAt]
    by_cases hy : getId y = key
    · have hgy : (decide (getId y = k')) = false :=
        decide_eq_false (by rw [hy]; exact fun h => hne h.symm)
      rw [if_pos hy]
      simp [find?_cons_eq, hgr, hgy]
    · rw [if_neg hy]
      rw [find?_cons_eq, find?_cons_eq]
      cases hpy : (decide (getId y = k')) with
      | true => simp [hpy]
      | false => simp [hpy, ih]

theorem eraseKey_sublist (getId : α → Nat) (key : Nat) (l : List α) :
    List.Sublist (eraseKey getId key l) l := by
  induction l with
  | nil => simp [eraseKey]
  | cons y ys ih =>
    simp only [eraseKey]
    by_cases hy : getId y = key
    · rw [if_pos hy]
      exact List.sublist_cons_self y ys
    · rw [if_neg hy]
      exact ih.cons₂ y

theorem mem_eraseKey_of_ne {getId : α → Nat} {key : Nat} {x : α} (l : List α)
    (hx : getId x ≠ key) : x ∈ eraseKey getId key l ↔ x ∈ l := by
  induction l with
  | nil => simp [eraseKey]
  | cons y ys ih =>
    simp only [eraseKey]
    by_cases hy : getId y = key
    · rw [if_pos hy]
      constructor
      · exact fun h => List.mem_cons_of_mem _ h
      · intro h
        rcases List.mem_cons.mp h with h | h
        · exact absurd (h ▸ hy) hx
        · exact h
    · rw [if_neg hy]
      simp [ih]

theorem not_mem_eraseKey {getId : α → Nat} {key : Nat} {x : α} (l : List α)
    (hnd : (l.map getId).Nodup) (hx : getId x = key) : x ∉ eraseKey getId key l := by
  induction l with
  | nil => simp [eraseKey]
  | cons y ys ih =>
    rw [List.map_cons, List.nodup_cons] at hnd
    obtain ⟨hynot, hnd'⟩ := hnd
    simp only [eraseKey]
    by_cases hy : getId y = key
    · rw [if_pos hy]
      intro hmem
      have hmap : getId y ∈ ys.map getId := by
        rw [hy, ← hx]
        exact List.mem_map_of_mem getId hmem
      exact hynot hmap
    · rw [if_neg hy]
      intro hmem
      rcases List.mem_cons.mp hmem with h | h
      · exact hy (h ▸ hx)
      · exact ih hnd' h

/-! ## Lemmas about the stable sorts -/

theorem insertAscBy_perm (key : α → Nat) (a : α) (l : List α) :
    List.Perm (insertAscBy key a l) (a :: l) := by
  induction l with
  | nil => exact List.Perm.refl _
  | cons b l ih =>
    simp only [insertAscBy]
    by_cases h : key a ≤ key b
    · rw [if_pos h]
    · rw [if_neg h]
      exact (ih.cons b).trans (List.Perm.swap a b l)

theorem sortAscBy_perm (key : α → Nat) (l : List α) :
    List.Perm (sortAscBy key l) l := by
  induction l with
  | nil => exact List.Perm.refl _
  | cons b l ih =>
    simp only [sortAscBy]
    exact (insertAscBy_perm key b (sortAscBy key l)).trans (ih.cons b)

theorem insertAscBy_pairwise (key : α → Nat) (a : α) {l : List α}
    (h : l.Pairwise (fun x y => key x ≤ key y)) :
    (insertAscBy key a l).Pairwise (fun x y => key x ≤ key y) := by
  induction l with
  | nil => simp [insertAscBy]
  | cons b l ih =>
    rcases List.pairwise_cons.mp h with ⟨hb, hl⟩
    simp only [insertAscBy]
    by_cases hab : key a ≤ key b
    · rw [if_pos hab]
      refine List.pairwise_cons.mpr ⟨?_, h⟩
      intro y hy
      rcases List.mem_cons.mp hy with rfl | hy
      · exact hab
      · exact le_trans hab (hb y hy)
    · rw [if_neg hab]
      refine List.pairwise_cons.mpr ⟨?_, ih hl⟩
      intro y hy
      rcases List.mem_cons.mp ((insertAscBy_perm key a l).mem_iff.mp hy) with rfl | hy'
      · omega
      · exact hb y hy'

theorem sortAscBy_pairwise (key : α → Nat) (l : List α) :
    (sortAscBy key l).Pairwise (fun x y => key x ≤ key y) := by
  induction l with
  | nil => simp [sortAscBy]
  | cons b l ih =>
    simp only [sortAscBy]
    exact insertAscBy_pairwise key b ih

theorem insertDescBy_perm (key : α → Nat) (a : α) (l : List α) :
    List.Perm (insertDescBy key a l) (a :: l) := by
  induction l with
  | nil => exact List.Perm.refl _
  | cons b l ih =>
    simp only [insertDescBy]
    by_cases h : key b ≤ key a
    · rw [if_pos h]
    · rw [if_neg h]
      exact (ih.cons b).trans (List.Perm.swap a b l)

theorem sortDescBy_perm (key : α → Nat) (l : List α) :
    List.Perm (sortDescBy key l) l := by
  induction l with
  | nil => exact List.Perm.refl _
  | cons b l ih =>
    simp only [sortDescBy]
    exact (insertDescBy_perm key b (sortDescBy key l)).trans (ih.cons b)

theorem insertDescBy_pairwise (key : α → Nat) (a : α) {l : List α}
    (h : l.Pairwise (fun x y => key y ≤ key x)) :
    (insertDescBy key a l).Pairwise (fun x y => key y ≤ key x) := by
  induction l with
  | nil => simp [insertDescBy]
  | cons b l ih =>
    rcases List.pairwise_cons.mp h with ⟨hb, hl⟩
    simp only [insertDescBy]
    by_cases hab : key b ≤ key a
    · rw [if_pos hab]
      refine List.pairwise_cons.mpr ⟨?_, h⟩
      intro y hy
      rcases List.mem_cons.mp hy with rfl | hy
      · exact hab
      · exact le_trans (hb y hy) hab
    · rw [if_neg hab]
      refine List.pairwise_cons.mpr ⟨?_, ih hl⟩
      intro y hy
      rcases List.mem_cons.mp ((insertDescBy_perm key a l).mem_iff.mp hy) with rfl | hy'
      · omega
      · exact hb y hy'

theorem sortDescBy_pairwise (key : α → Nat) (l : List α) :
    (sortDescBy key l).Pairwise (fun x y => key y ≤ key x) := by
  induction l with
  | nil => simp [sortDescBy]
  | cons b l ih =>
    simp only [sortDescBy]
    exact insertDescBy_pairwise key b ih

theorem filter_eq_singleton {Q : α → Bool} {l : List α} {a : α} (hnd : l.Nodup)
    (ha : a ∈ l) (hQ : Q a = true) (huniq : ∀ x ∈ l, Q x = true → x = a) :
    l.filter Q = [a] := by
  induction l with
  | nil => cases ha
  | cons x xs ih =>
    rcases List.nodup_cons.mp hnd with ⟨hxnot, hnd'⟩
    by_cases hx : x = a
    · subst hx
      rw [List.filter_cons_of_pos hQ]
      have : xs.filter Q = [] := by
        rw [List.filter_eq_nil_iff]
        intro y hy hQy
        exact hxnot ((huniq y (List.mem_cons_of_mem _ hy) hQy) ▸ hy)
      rw [this]
    · have hQx : Q x = false := by
        cases hqx : Q x with
        | false => rfl
        | true => exact absurd (huniq x (List.mem_cons_self x xs) hqx) hx
      rw [List.filter_cons_of_neg (by simp [hQx])]
      have ha' : a ∈ xs := by
        rcases List.mem_cons.mp ha with h | h
        · exact absurd h.symm hx
        · exact h
      exact ih hnd' ha' (fun y hy hQy => huniq y (List.mem_cons_of_mem _ hy) hQy)

/-! ## Reachability and the Like invariants -/

/-- One mutating contract operation of the in-memory store. -/
inductive Step : MemStorage → MemStorage → Prop where
  | createUser (s : MemStorage) (ins : InsertUser) : Step s (s.createUser ins).2
  | updateUser (s : MemStorage) (id : Nat) (data : UserUpdate) :
      Step s (s.updateUser id data).2
  | addWaterIntake (s : MemStorage) (ins : InsertWaterIntake) (now : Nat) :
      Step s (s.addWaterIntake ins now).2
  | createActivity (s : MemStorage) (ins : InsertActivity) (now : Nat) :
      Step s (s.createActivity ins now).2
  | saveRoute (s : MemStorage) (ins : InsertRoute) : Step s (s.saveRoute ins).2
  | createPost (s : MemStorage) (ins : InsertPost) (now : Nat) :
      Step s (s.createPost ins now).2
  | addLike (s : MemStorage) (ins : InsertLike) : Step s (s.addLike ins).2
  | removeLike (s : MemStorage) (userId postId : Nat) :
      Step s (s.removeLike userId postId)
  | addComment (s : MemStorage) (ins : InsertComment) (now : Nat) :
      Step s (s.addComment ins now).2

/-- States reachable from a freshly constructed store by sequential
contract operations. -/
inductive Reachable : MemStorage → Prop where
  | init : Reachable initStorage
  | step {s s' : MemStorage} : Reachable s → Step s s' → Reachable s'

/-- Invariants of the likes table: every id is below the counter, ids
are pairwise distinct, and there is at most one Like per
(userId, postId) pair. -/
structure LikesInv (s : MemStorage) : Prop where
  lt : ∀ l ∈ s.likes, l.id < s.likeIdCounter
  nodup : (s.likes.map Like.id).Nodup
  unique : ∀ l₁ ∈ s.likes, ∀ l₂ ∈ s.likes,
    l₁.userId = l₂.userId → l₁.postId = l₂.postId → l₁ = l₂

theorem LikesInv.of_eq {s s' : MemStorage} (h : LikesInv s)
    (hl : s'.likes = s.likes) (hc : s'.likeIdCounter = s.likeIdCounter) :
    LikesInv s' := by
  refine ⟨?_, ?_, ?_⟩
  · rw [hl, hc]; exact h.lt
  · rw [hl]; exact h.nodup
  · rw [hl]; exact h.unique

/-- Unfolding equation for `addLike` when no matching Like exists. -/
theorem addLike_eq_of_none {s : MemStorage} {ins : InsertLike}
    (hf : s.likes.find? (fun l => decide (l.userId = ins.userId ∧ l.postId = ins.postId)) = none) :
    s.addLike ins =
      ({ id := s.likeIdCounter, userId := ins.userId, postId := ins.postId },
       { s with likes := setAt Like.id s.likeIdCounter
                  { id := s.likeIdCounter, userId := ins.userId, postId := ins.postId } s.likes,
                likeIdCounter := s.likeIdCounter + 1 }) := by
  unfold MemStorage.addLike
  rw [hf]

/-- Unfolding equation for `addLike` when a matching Like exists. -/
theorem addLike_eq_of_some {s : MemStorage} {ins : InsertLike} {l : Like}
    (hf : s.likes.find? (fun x => decide (x.userId = ins.userId ∧ x.postId = ins.postId)) = some l) :
    s.addLike ins = (l, s) := by
  unfold MemStorage.addLike
  rw [hf]

/-- Unfolding equation for `removeLike` when no matching Like exists. -/
theorem removeLike_eq_of_none {s : MemStorage} {userId postId : Nat}
    (hf : s.likes.find? (fun l => decide (l.userId = userId ∧ l.postId = postId)) = none) :
    s.removeLike userId postId = s := by
  unfold MemStorage.removeLike
  rw [hf]

/-- Unfolding equation for `removeLike` when a matching Like exists. -/
theorem removeLike_eq_of_some {s : MemStorage} {userId postId : Nat} {l : Like}
    (hf : s.likes.find? (fun x => decide (x.userId = userId ∧ x.postId = postId)) = some l) :
    s.removeLike userId postId = { s with likes := eraseKey Like.id l.id s.likes } := by
  unfold MemStorage.removeLike
  rw [hf]

theorem updateUser_likes (s : MemStorage) (id : Nat) (data : UserUpdate) :
    (s.updateUser id data).2.likes = s.likes := by
  unfold MemStorage.updateUser
  cases s.getUser id <;> rfl

theorem updateUser_likeIdCounter (s : MemStorage) (id : Nat) (data : UserUpdate) :
    (s.updateUser id data).2.likeIdCounter = s.likeIdCounter := by
  unfold MemStorage.updateUser
  cases s.getUser id <;> rfl

theorem likesInv_addLike {s : MemStorage} (h : LikesInv s) (ins : InsertLike) :
    LikesInv (s.addLike ins).2 := by
  cases hf : s.likes.find? (fun l => decide (l.userId = ins.userId ∧ l.postId = ins.postId)) with
  | some l =>
    rw [addLike_eq_of_some hf]
    exact h
  | none =>
    rw [addLike_eq_of_none hf]
    have hfresh : ∀ x ∈ s.likes, Like.id x ≠ s.likeIdCounter :=
      fun x hx => Nat.ne_of_lt (h.lt x hx)
    have happ := @setAt_eq_append Like Like.id s.likeIdCounter
      ({ id := s.likeIdCounter, userId := ins.userId, postId := ins.postId } : Like) s.likes hfresh
    have hnomatch : ∀ x ∈ s.likes, ¬(x.userId = ins.userId ∧ x.postId = ins.postId) := by
      intro x hx hmatch
      have := List.find?_eq_none.mp hf x hx
      simp [hmatch] at this
    refine ⟨?_, ?_, ?_⟩
    · intro l hl
      rw [happ] at hl
      rcases List.mem_append.mp hl with hl | hl
      · exact Nat.lt_succ_of_lt (h.lt l hl)
      · rw [List.mem_singleton.mp hl]
        exact Nat.lt_succ_self _
    · rw [happ, List.map_append]
      rw [List.nodup_append]
      refine ⟨h.nodup, List.nodup_singleton _, ?_⟩
      intro a ha hb
      simp only [List.map_cons, List.map_nil, List.mem_singleton] at hb
      subst hb
      rcases List.mem_map.mp ha with ⟨x, hx, hxid⟩
      exact hfresh x hx hxid
    · intro l₁ h₁ l₂ h₂ hu hp
      rw [happ] at h₁ h₂
      rcases List.mem_append.mp h₁ with h₁ | h₁ <;>
        rcases List.mem_append.mp h₂ with h₂ | h₂
      · exact h.unique l₁ h₁ l₂ h₂ hu hp
      · rw [List.mem_singleton.mp h₂] at hu hp
        exact absurd ⟨hu, hp⟩ (hnomatch l₁ h₁)
      · rw [List.mem_singleton.mp h₁] at hu hp
        exact absurd ⟨hu.symm, hp.symm⟩ (hnomatch l₂ h₂)
      · rw [List.mem_singleton.mp h₁, List.mem_singleton.mp h₂]

theorem likesInv_removeLike {s : MemStorage} (h : LikesInv s) (userId postId : Nat) :
    LikesInv (s.removeLike userId postId) := by
  cases hf : s.likes.find? (fun l => decide (l.userId = userId ∧ l.postId = postId)) with
  | none =>
    rw [removeLike_eq_of_none hf]
    exact h
  | some l =>
    rw [removeLike_eq_of_some hf]
    have hsub := eraseKey_sublist Like.id l.id s.likes
    refine ⟨?_, ?_, ?_⟩
    · intro x hx
      exact h.lt x (hsub.subset hx)
    · exact h.nodup.sublist (hsub.map Like.id)
    · intro l₁ h₁ l₂ h₂ hu hp
      exact h.unique l₁ (hsub.subset h₁) l₂ (hsub.subset h₂) hu hp

theorem likesInv_init : LikesInv initStorage := by
  refine ⟨?_, ?_, ?_⟩ <;>
    simp [initStorage, emptyStorage, MemStorage.createUser, setAt]

theorem likesInv_step {s s' : MemStorage} (h : LikesInv s) (hs : Step s s') :
    LikesInv s' := by
  cases hs with
  | createUser ins => exact h.of_eq rfl rfl
  | updateUser id data => exact h.of_eq (updateUser_likes s id data) (updateUser_likeIdCounter s id data)
  | addWaterIntake ins now => exact h.of_eq rfl rfl
  | createActivity ins now => exact h.of_eq rfl rfl
  | saveRoute ins => exact h.of_eq rfl rfl
  | createPost ins now => exact h.of_eq rfl rfl
  | addLike ins => exact likesInv_addLike h ins
  | removeLike userId postId => exact likesInv_removeLike h userId postId
  | addComment ins now => exact h.of_eq rfl rfl

theorem likesInv_reachable {s : MemStorage} (h : Reachable s) : LikesInv s := by
  induction h with
  | init => exact likesInv_init
  | step _ hs ih => exact likesInv_step ih hs

theorem eq_of_map_nodup {getId : α → Nat} {l : List α} (hnd : (l.map getId).Nodup)
    {x y : α} (hx : x ∈ l) (hy : y ∈ l) (hid : getId x = getId y) : x = y := by
  induction l with
  | nil => cases hx
  | cons z zs ih =>
    rw [List.map_cons, List.nodup_cons] at hnd
    obtain ⟨hznot, hnd'⟩ := hnd
    rcases List.mem_cons.mp hx with rfl | hx' <;>
      rcases List.mem_cons.mp hy with rfl | hy'
    · rfl
    · exact absurd (hid ▸ List.mem_map_of_mem getId hy') hznot
    · exact absurd (hid ▸ List.mem_map_of_mem getId hx') hznot
    · exact ih hnd' hx' hy'

theorem addLike_result_mem (s : MemStorage) (ins : InsertLike) :
    (s.addLike ins).1 ∈ (s.addLike ins).2.likes
    ∧ (s.addLike ins).1.userId = ins.userId
    ∧ (s.addLike ins).1.postId = ins.postId := by
  cases hf : s.likes.find? (fun l => decide (l.userId = ins.userId ∧ l.postId = ins.postId)) with
  | some l =>
    rw [addLike_eq_of_some hf]
    have hp := List.find?_some hf
    simp only [decide_eq_true_eq] at hp
    exact ⟨List.mem_of_find?_eq_some hf, hp.1, hp.2⟩
  | none =>
    rw [addLike_eq_of_none hf]
    exact ⟨mem_setAt_self _ _ _ _, rfl, rfl⟩

/-- C1: for every reachable store state and every (userId, postId) pair,
calling addLike twice returns the same Like both times with the second
call changing nothing, afterwards getLikesByPostId contains exactly one
Like with that userId, and every reachable state has at most one Like
per (userId, postId) pair. -/
theorem claim_addLike_idempotent (s : MemStorage) (h : Reachable s) (u p : Nat) :
    (s.addLike ⟨u, p⟩).2.addLike ⟨u, p⟩ = ((s.addLike ⟨u, p⟩).1, (s.addLike ⟨u, p⟩).2)
    ∧ (((s.addLike ⟨u, p⟩).2.getLikesByPostId p).countP (fun l => decide (l.userId = u))) = 1
    ∧ (∀ l₁ ∈ s.likes, ∀ l₂ ∈ s.likes,
        l₁.userId = l₂.userId → l₁.postId = l₂.postId → l₁ = l₂) := by
  have hinv := likesInv_reachable h
  have hinv1 : LikesInv (s.addLike ⟨u, p⟩).2 :=
    likesInv_step hinv (Step.addLike s ⟨u, p⟩)
  have hmem := addLike_result_mem s ⟨u, p⟩
  have hfind : (s.addLike ⟨u, p⟩).2.likes.find?
      (fun l => decide (l.userId = u ∧ l.postId = p)) = some (s.addLike ⟨u, p⟩).1 := by
    cases hf : s.likes.find? (fun l => decide (l.userId = u ∧ l.postId = p)) with
    | some l =>
      rw [addLike_eq_of_some hf]
      exact hf
    | none =>
      rw [addLike_eq_of_none hf]
      have hfresh : ∀ x ∈ s.likes, Like.id x ≠ s.likeIdCounter :=
        fun x hx => Nat.ne_of_lt (hinv.lt x hx)
      rw [setAt_eq_append _ hfresh, List.find?_append, hf]
      simp [List.find?]
  refine ⟨?_, ?_, ?_⟩
  · rw [addLike_eq_of_some hfind]
  · rw [MemStorage.getLikesByPostId, List.countP_eq_length_filter, List.filter_filter]
    have hsingle : (s.addLike ⟨u, p⟩).2.likes.filter
        (fun l => decide (l.userId = u) && decide (l.postId = p)) = [(s.addLike ⟨u, p⟩).1] := by
      apply filter_eq_singleton (hinv1.nodup.of_map) hmem.1
      · simp [hmem.2.1, hmem.2.2]
      · intro x hx hQ
        simp only [Bool.and_eq_true, decide_eq_true_eq] at hQ
        exact hinv1.unique x hx _ hmem.1 (hQ.1.trans hmem.2.1.symm) (hQ.2.trans hmem.2.2.symm)
    rw [hsingle]
    rfl
  · exact hinv.unique

/-- C1 witness: the theorem instantiated at the freshly constructed
store and the pair (1, 1). -/
theorem claim_addLike_idempotent_witness :
    (initStorage.addLike ⟨1, 1⟩).2.addLike ⟨1, 1⟩
        = ((initStorage.addLike ⟨1, 1⟩).1, (initStorage.addLike ⟨1, 1⟩).2)
    ∧ (((initStorage.addLike ⟨1, 1⟩).2.getLikesByPostId 1).countP
        (fun l => decide (l.userId = 1))) = 1
    ∧ (∀ l₁ ∈ initStorage.likes, ∀ l₂ ∈ initStorage.likes,
        l₁.userId = l₂.userId → l₁.postId = l₂.postId → l₁ = l₂) :=
  claim_addLike_idempotent initStorage Reachable.init 1 1

/-- C9: removeLike on a pair with no matching Like is a no-op on the
whole store; when a match exists exactly the matching Like is removed
and every other table and counter is untouched. -/
theorem claim_removeLike_spec (s : MemStorage) (h : Reachable s) (u p : Nat) :
    ((∀ l ∈ s.likes, ¬(l.userId = u ∧ l.postId = p)) → s.removeLike u p = s)
    ∧ (∀ l, l ∈ (s.removeLike u p).likes ↔ l ∈ s.likes ∧ ¬(l.userId = u ∧ l.postId = p))
    ∧ (s.removeLike u p).users = s.users
    ∧ (s.removeLike u p).waterIntakes = s.waterIntakes
    ∧ (s.removeLike u p).activities = s.activities
    ∧ (s.removeLike u p).routes = s.routes
    ∧ (s.removeLike u p).posts = s.posts
    ∧ (s.removeLike u p).comments = s.comments
    ∧ (s.removeLike u p).userIdCounter = s.userIdCounter
    ∧ (s.removeLike u p).likeIdCounter = s.likeIdCounter := by
  have hinv := likesInv_reachable h
  cases hf : s.likes.find? (fun l => decide (l.userId = u ∧ l.postId = p)) with
  | none =>
    rw [removeLike_eq_of_none hf]
    refine ⟨fun _ => rfl, ?_, rfl, rfl, rfl, rfl, rfl, rfl, rfl, rfl⟩
    intro l
    constructor
    · intro hl
      refine ⟨hl, ?_⟩
      have := List.find?_eq_none.mp hf l hl
      simpa using this
    · exact fun hl => hl.1
  | some l₀ =>
    have hl₀mem := List.mem_of_find?_eq_some hf
    have hl₀match : l₀.userId = u ∧ l₀.postId = p := by
      have := List.find?_some hf
      simpa using this
    rw [removeLike_eq_of_some hf]
    refine ⟨?_, ?_, rfl, rfl, rfl, rfl, rfl, rfl, rfl, rfl⟩
    · intro hnone
      exact absurd hl₀match (hnone l₀ hl₀mem)
    · intro l
      constructor
      · intro hl
        have hlmem : l ∈ s.likes := (eraseKey_sublist Like.id l₀.id s.likes).subset hl
        refine ⟨hlmem, ?_⟩
        intro hmatch
        have : l = l₀ := hinv.unique l hlmem l₀ hl₀mem
          (hmatch.1.trans hl₀match.1.symm) (hmatch.2.trans hl₀match.2.symm)
        subst this
        exact not_mem_eraseKey s.likes hinv.nodup rfl hl
      · intro ⟨hlmem, hmatch⟩
        have hne : Like.id l ≠ l₀.id := by
          intro hid
          have : l = l₀ := eq_of_map_nodup hinv.nodup hlmem hl₀mem hid
          subst this
          exact hmatch hl₀match
        exact (mem_eraseKey_of_ne s.likes hne).mpr hlmem

/-- C9 witness: the theorem instantiated at the freshly constructed
store and the pair (1, 1), where no Like exists. -/
theorem claim_removeLike_spec_witness :
    ((∀ l ∈ initStorage.likes, ¬(l.userId = 1 ∧ l.postId = 1)) →
        initStorage.removeLike 1 1 = initStorage)
    ∧ (∀ l, l ∈ (initStorage.removeLike 1 1).likes ↔
        l ∈ initStorage.likes ∧ ¬(l.userId = 1 ∧ l.postId = 1))
    ∧ (initStorage.removeLike 1 1).users = initStorage.users
    ∧ (initStorage.removeLike 1 1).waterIntakes = initStorage.waterIntakes
    ∧ (initStorage.removeLike 1 1).activities = initStorage.activities
    ∧ (initStorage.removeLike 1 1).routes = initStorage.routes
    ∧ (initStorage.removeLike 1 1).posts = initStorage.posts
    ∧ (initStorage.removeLike 1 1).comments = initStorage.comments
    ∧ (initStorage.removeLike 1 1).userIdCounter = initStorage.userIdCounter
    ∧ (initStorage.removeLike 1 1).likeIdCounter = initStorage.likeIdCounter :=
  claim_removeLike_spec initStorage Reachable.init 1 1

theorem optBoolTruthy_eq_true {o : Option Bool} : optBoolTruthy o = true ↔ o = some true := by
  cases o with
  | none => simp [optBoolTruthy]
  | some b => cases b <;> simp [optBoolTruthy]

/-- C3: getWaterIntakeByUserIdAndDate returns exactly the stored records
of the user whose timestamp lies in the inclusive day window
[00:00:00.000, 23:59:59.999] of the day of the date, sorted
oldest-first; a record at 23:59:59.999 is included and a record at
00:00:00.000 of the next day is excluded. -/
theorem claim_waterIntake_date_window (s : MemStorage) (uid date : Nat) :
    let res := s.getWaterIntakeByUserIdAndDate uid date
    List.Perm res (s.waterIntakes.filter (fun w =>
      decide (w.userId = uid ∧ startOfDay date ≤ w.timestamp ∧ w.timestamp ≤ endOfDay date)))
    ∧ (∀ w, w ∈ res ↔ w ∈ s.waterIntakes ∧ w.userId = uid ∧
        startOfDay date ≤ w.timestamp ∧ w.timestamp ≤ startOfDay date + 86399999)
    ∧ res.Pairwise (fun a b => a.timestamp ≤ b.timestamp)
    ∧ (∀ w ∈ s.waterIntakes, w.userId = uid →
        w.timestamp = startOfDay date + 86399999 → w ∈ res)
    ∧ (∀ w, w.timestamp = startOfDay date + 86400000 → w ∉ res) := by
  intro res
  have hperm : List.Perm res (s.waterIntakes.filter (fun w =>
      decide (w.userId = uid ∧ startOfDay date ≤ w.timestamp ∧ w.timestamp ≤ endOfDay date))) :=
    sortAscBy_perm WaterIntake.timestamp _
  have hmem : ∀ w, w ∈ res ↔ w ∈ s.waterIntakes ∧ w.userId = uid ∧
      startOfDay date ≤ w.timestamp ∧ w.timestamp ≤ startOfDay date + 86399999 := by
    intro w
    rw [hperm.mem_iff, List.mem_filter]
    simp [endOfDay]
  refine ⟨hperm, hmem, ?_, ?_, ?_⟩
  · exact sortAscBy_pairwise WaterIntake.timestamp _
  · intro w hw huid hts
    exact (hmem w).mpr ⟨hw, huid, by omega, by omega⟩
  · intro w hts hmemw
    have := ((hmem w).mp hmemw).2.2.2
    omega

/-- C3 witness: the theorem instantiated at a store holding one record
at the last millisecond of the day and one at midnight of the next day. -/
theorem claim_waterIntake_date_window_witness :
    let s := ((initStorage.addWaterIntake ⟨1, 500⟩ 86399999).2.addWaterIntake ⟨1, 300⟩ 86400000).2
    let res := s.getWaterIntakeByUserIdAndDate 1 86390000
    List.Perm res (s.waterIntakes.filter (fun w =>
      decide (w.userId = 1 ∧ startOfDay 86390000 ≤ w.timestamp ∧ w.timestamp ≤ endOfDay 86390000)))
    ∧ (∀ w, w ∈ res ↔ w ∈ s.waterIntakes ∧ w.userId = 1 ∧
        startOfDay 86390000 ≤ w.timestamp ∧ w.timestamp ≤ startOfDay 86390000 + 86399999)
    ∧ res.Pairwise (fun a b => a.timestamp ≤ b.timestamp)
    ∧ (∀ w ∈ s.waterIntakes, w.userId = 1 →
        w.timestamp = startOfDay 86390000 + 86399999 → w ∈ res)
    ∧ (∀ w, w.timestamp = startOfDay 86390000 + 86400000 → w ∉ res) :=
  claim_waterIntake_date_window
    ((initStorage.addWaterIntake ⟨1, 500⟩ 86399999).2.addWaterIntake ⟨1, 300⟩ 86400000).2 1 86390000

/-- Fifteen posts created in creation order at strictly increasing
server times (the counter doubles as the clock). -/
def mkPosts : Nat → MemStorage → MemStorage
  | 0, s => s
  | n + 1, s =>
    mkPosts n (s.createPost { userId := 1, activityId := none, content := "post", imagePath := none }
      s.postIdCounter).2

/-- The store after creating 15 posts in order on a fresh store. -/
def fifteenPostsState : MemStorage := mkPosts 15 initStorage

/-- C4: getPosts returns the window [offset, offset + limit) of the
posts sorted newest-first; for 15 posts created in order, getPosts(5,5)
returns exactly the 6th through 10th newest posts, and a window beyond
the end of the collection is empty. -/
theorem claim_getPosts_window (s : MemStorage) (limit offset : Nat) :
    s.getPosts limit offset = ((sortDescBy Post.timestamp s.posts).drop offset).take limit
    ∧ List.Perm (sortDescBy Post.timestamp s.posts) s.posts
    ∧ (sortDescBy Post.timestamp s.posts).Pairwise (fun a b => b.timestamp ≤ a.timestamp)
    ∧ (∀ i, i < limit →
        (s.getPosts limit offset)[i]? = (sortDescBy Post.timestamp s.posts)[offset + i]?)
    ∧ (s.posts.length ≤ offset → s.getPosts limit offset = [])
    ∧ (fifteenPostsState.getPosts 5 5).map Post.id = [10, 9, 8, 7, 6] := by
  refine ⟨rfl, sortDescBy_perm Post.timestamp s.posts, sortDescBy_pairwise Post.timestamp s.posts,
    ?_, ?_, by decide⟩
  · intro i hi
    rw [MemStorage.getPosts, List.getElem?_take, if_pos hi, List.getElem?_drop]
  · intro hoff
    rw [MemStorage.getPosts, List.drop_eq_nil_of_le, List.take_nil]
    rw [(sortDescBy_perm Post.timestamp s.posts).length_eq]
    exact hoff

/-- C4 witness: the theorem instantiated at the 15-post store with
limit 5 and offset 5. -/
theorem claim_getPosts_window_witness :
    fifteenPostsState.getPosts 5 5
        = ((sortDescBy Post.timestamp fifteenPostsState.posts).drop 5).take 5
    ∧ List.Perm (sortDescBy Post.timestamp fifteenPostsState.posts) fifteenPostsState.posts
    ∧ (sortDescBy Post.timestamp fifteenPostsState.posts).Pairwise
        (fun a b => b.timestamp ≤ a.timestamp)
    ∧ (∀ i, i < 5 → (fifteenPostsState.getPosts 5 5)[i]?
        = (sortDescBy Post.timestamp fifteenPostsState.posts)[5 + i]?)
    ∧ (fifteenPostsState.posts.length ≤ 5 → fifteenPostsState.getPosts 5 5 = [])
    ∧ (fifteenPostsState.getPosts 5 5).map Post.id = [10, 9, 8, 7, 6] :=
  claim_getPosts_window fifteenPostsState 5 5

/-- C6: getPublicActivitiesNearby ignores all three arguments and
returns exactly getRecentActivities(10): up to 10 public activities
ordered newest-first, identical for any two argument triples. -/
theorem claim_nearby_stub (s : MemStorage) (lat lng radiusKm lat' lng' radiusKm' : Int) :
    s.getPublicActivitiesNearby lat lng radiusKm = s.getRecentActivities 10
    ∧ s.getPublicActivitiesNearby lat lng radiusKm
        = s.getPublicActivitiesNearby lat' lng' radiusKm'
    ∧ (s.getPublicActivitiesNearby lat lng radiusKm).length ≤ 10
    ∧ (∀ a ∈ s.getPublicActivitiesNearby lat lng radiusKm, a.isPublic = some true)
    ∧ (s.getPublicActivitiesNearby lat lng radiusKm).Pairwise
        (fun a b => b.timestamp ≤ a.timestamp) := by
  refine ⟨rfl, rfl, ?_, ?_, ?_⟩
  · exact List.length_take_le 10 _
  · intro a ha
    have hmem : a ∈ sortDescBy Activity.timestamp
        (s.activities.filter (fun a => optBoolTruthy a.isPublic)) :=
      (List.take_sublist 10 _).subset ha
    have hfil : a ∈ s.activities.filter (fun a => optBoolTruthy a.isPublic) :=
      (sortDescBy_perm Activity.timestamp _).mem_iff.mp hmem
    exact optBoolTruthy_eq_true.mp (List.mem_filter.mp hfil).2
  · exact (sortDescBy_pairwise Activity.timestamp _).sublist (List.take_sublist 10 _)

/-- C6 witness: the theorem instantiated at the fresh store and two
distinct argument triples. -/
theorem claim_nearby_stub_witness :
    initStorage.getPublicActivitiesNearby 0 0 0 = initStorage.getRecentActivities 10
    ∧ initStorage.getPublicActivitiesNearby 0 0 0 = initStorage.getPublicActivitiesNearby 7 8 9
    ∧ (initStorage.getPublicActivitiesNearby 0 0 0).length ≤ 10
    ∧ (∀ a ∈ initStorage.getPublicActivitiesNearby 0 0 0, a.isPublic = some true)
    ∧ (initStorage.getPublicActivitiesNearby 0 0 0).Pairwise
        (fun a b => b.timestamp ≤ a.timestamp) :=
  claim_nearby_stub initStorage 0 0 0 7 8 9

theorem jsOrElse_int_none (x : Option Int) :
    jsOrElse intTruthy x none =
      (match x with
        | none => none
        | some n => if n = 0 then none else some n) := by
  cases x with
  | none => rfl
  | some n =>
    simp only [jsOrElse, intTruthy, bne_iff_ne, ne_eq, ite_not]

theorem jsOrElse_str_none (x : Option String) :
    jsOrElse strTruthy x none =
      (match x with
        | none => none
        | some w => if w = "" then none else some w) := by
  cases x with
  | none => rfl
  | some w =>
    simp only [jsOrElse, strTruthy, bne_iff_ne, ne_eq, ite_not]

theorem jsOrElse_int_goal (x : Option Int) :
    jsOrElse intTruthy x (some 2000) =
      (match x with
        | none => some 2000
        | some n => if n = 0 then some 2000 else some n) := by
  cases x with
  | none => rfl
  | some n =>
    simp only [jsOrElse, intTruthy, bne_iff_ne, ne_eq, ite_not]

/-- An InsertActivity whose elevationGain is explicitly provided as 0. -/
def actIns0 : InsertActivity :=
  { userId := 1, title := "morning run", type := "run", distance := 5, duration := 1800,
    elevationGain := some 0, weather := none, temperature := none, isPublic := none }

/-- C5 counterexample: an explicitly provided elevationGain of 0 is not
preserved by createActivity; the `|| null` defaulting stores null. -/
theorem claim_createActivity_defaults_counterexample :
    actIns0.elevationGain = some 0
    ∧ (initStorage.createActivity actIns0 7).1.elevationGain ≠ actIns0.elevationGain
    ∧ (initStorage.createActivity actIns0 7).1.elevationGain = none := by
  refine ⟨rfl, ?_, rfl⟩
  decide

/-- C5 amended: createActivity assigns the server timestamp, preserves
the required fields, defaults unset optional fields to null, preserves
an explicit isPublic = false via `?? true`, but replaces every falsy
provided optional value (0 or empty string) with null via `|| null`;
truthy provided values are preserved. -/
theorem claim_createActivity_defaults (s : MemStorage) (ins : InsertActivity) (now : Nat) :
    let r := (s.createActivity ins now).1
    r.timestamp = now
    ∧ r.userId = ins.userId ∧ r.title = ins.title ∧ r.type = ins.type
    ∧ r.distance = ins.distance ∧ r.duration = ins.duration
    ∧ r.elevationGain = (match ins.elevationGain with
        | none => none
        | some n => if n = 0 then none else some n)
    ∧ r.weather = (match ins.weather with
        | none => none
        | some w => if w = "" then none else some w)
    ∧ r.temperature = (match ins.temperature with
        | none => none
        | some t => if t = 0 then none else some t)
    ∧ r.isPublic = some (ins.isPublic.getD true)
    ∧ r.id = s.activityIdCounter
    ∧ r ∈ (s.createActivity ins now).2.activities := by
  refine ⟨rfl, rfl, rfl, rfl, rfl, rfl, ?_, ?_, ?_, rfl, rfl, ?_⟩
  · exact jsOrElse_int_none ins.elevationGain
  · exact jsOrElse_str_none ins.weather
  · exact jsOrElse_int_none ins.temperature
  · exact mem_setAt_self _ _ _ _

/-! ## The relational store (class DatabaseStorage), users table -/

/-- State of the relational `users` table. -/
structure DbState where
  users : List User
  nextUserId : Nat
  deriving Repr, DecidableEq

/-- Store-level failure of the relational engine. -/
inductive DbError where
  | uniqueViolation
  deriving Repr, DecidableEq

/-- Modelled from the spec: the external relational engine executing an
insert into the `users` table while enforcing the unique constraint the
schema declares on `username` (src/schema.ts declares the constraint;
the engine that enforces it is an external collaborator).  A violating
insert fails with a store-level error; otherwise the row is stored
under the next serial id and returned. -/
def dbInsertUser (db : DbState) (v : InsertUser) : Except DbError (User × DbState) :=
  if db.users.any (fun u => decide (u.username = v.username)) then
    .error .uniqueViolation
  else
    let u : User :=
      { id := db.nextUserId, username := v.username, password := v.password,
        email := v.email, profilePicture := v.profilePicture,
        dailyWaterGoal := v.dailyWaterGoal }
    .ok (u, { users := db.users ++ [u], nextUserId := db.nextUserId + 1 })

namespace DatabaseStorage

/-- `DatabaseStorage.createUser`: applies the application-layer
`|| null` / `|| 2000` defaulting and inserts the row. -/
def createUser (db : DbState) (user : InsertUser) : Except DbError (User × DbState) :=
  dbInsertUser db
    { user with profilePicture := jsOrElse strTruthy user.profilePicture none,
                dailyWaterGoal := jsOrElse intTruthy user.dailyWaterGoal (some 2000) }

end DatabaseStorage

/-- The relational store with an empty users table. -/
def dbEmpty : DbState := { users := [], nextUserId := 1 }

/-- C10: a createUser input with dailyWaterGoal provided explicitly as 0
is stored with dailyWaterGoal 2000, and an empty-string profilePicture
is stored as null, in both implementations: `||` replaces every falsy
provided value, not only absent ones. -/
theorem claim_createUser_falsy_defaults (s : MemStorage) (un pw em : String)
    (db : DbState) (u : User) (db' : DbState)
    (hdb : DatabaseStorage.createUser db ⟨un, pw, em, some "", some 0⟩ = .ok (u, db')) :
    (s.createUser ⟨un, pw, em, some "", some 0⟩).1.dailyWaterGoal = some 2000
    ∧ (s.createUser ⟨un, pw, em, some "", some 0⟩).1.profilePicture = none
    ∧ (s.createUser ⟨un, pw, em, some "", some 0⟩).1
        ∈ (s.createUser ⟨un, pw, em, some "", some 0⟩).2.users
    ∧ u.dailyWaterGoal = some 2000 ∧ u.profilePicture = none ∧ u ∈ db'.users := by
  unfold DatabaseStorage.createUser dbInsertUser at hdb
  split at hdb
  · exact absurd hdb (by simp)
  · simp only [Except.ok.injEq, Prod.mk.injEq] at hdb
    obtain ⟨hu, hdb'⟩ := hdb
    subst hu
    subst hdb'
    refine ⟨?_, ?_, mem_setAt_self _ _ _ _, ?_, ?_, ?_⟩
    · show jsOrElse intTruthy (some 0) (some 2000) = some 2000
      rfl
    · show jsOrElse strTruthy (some "") none = none
      simp [jsOrElse, strTruthy]
    · show jsOrElse intTruthy (some 0) (some 2000) = some 2000
      rfl
    · show jsOrElse strTruthy (some "") none = none
      simp [jsOrElse, strTruthy]
    · exact List.mem_append_right _ (List.mem_singleton_self _)

/-- C10 witness: the theorem instantiated at the fresh in-memory store
and the empty relational store. -/
theorem claim_createUser_falsy_defaults_witness :
    (initStorage.createUser ⟨"alice", "pw", "a@b.c", some "", some 0⟩).1.dailyWaterGoal = some 2000
    ∧ (initStorage.createUser ⟨"alice", "pw", "a@b.c", some "", some 0⟩).1.profilePicture = none
    ∧ (initStorage.createUser ⟨"alice", "pw", "a@b.c", some "", some 0⟩).1
        ∈ (initStorage.createUser ⟨"alice", "pw", "a@b.c", some "", some 0⟩).2.users
    ∧ (⟨1, "alice", "pw", "a@b.c", none, some 2000⟩ : User).dailyWaterGoal = some 2000
    ∧ (⟨1, "alice", "pw", "a@b.c", none, some 2000⟩ : User).profilePicture = none
    ∧ (⟨1, "alice", "pw", "a@b.c", none, some 2000⟩ : User)
        ∈ (⟨[⟨1, "alice", "pw", "a@b.c", none, some 2000⟩], 2⟩ : DbState).users :=
  claim_createUser_falsy_defaults initStorage "alice" "pw" "a@b.c" dbEmpty
    ⟨1, "alice", "pw", "a@b.c", none, some 2000⟩
    ⟨[⟨1, "alice", "pw", "a@b.c", none, some 2000⟩], 2⟩ (by rfl)

/-- C7: two createUser calls with the same username both succeed on the
in-memory store, storing two distinct records with distinct ids, while
on the relational store the second insert fails with a store-level
uniqueness error. -/
theorem claim_duplicate_username_asymmetry (s : MemStorage) (ins : InsertUser)
    (db : DbState) (u1 : User) (db1 : DbState)
    (hdb : DatabaseStorage.createUser db ins = .ok (u1, db1)) :
    (s.createUser ins).1.id ≠ ((s.createUser ins).2.createUser ins).1.id
    ∧ (s.createUser ins).1 ∈ ((s.createUser ins).2.createUser ins).2.users
    ∧ ((s.createUser ins).2.createUser ins).1 ∈ ((s.createUser ins).2.createUser ins).2.users
    ∧ (s.createUser ins).1.username = ins.username
    ∧ ((s.createUser ins).2.createUser ins).1.username = ins.username
    ∧ DatabaseStorage.createUser db1 ins = .error .uniqueViolation := by
  refine ⟨?_, ?_, mem_setAt_self _ _ _ _, rfl, rfl, ?_⟩
  · show s.userIdCounter ≠ s.userIdCounter + 1
    omega
  · have hmem : (s.createUser ins).1 ∈ (s.createUser ins).2.users :=
      mem_setAt_self _ _ _ _
    have hne : User.id (s.createUser ins).1 ≠ (s.createUser ins).2.userIdCounter := by
      show s.userIdCounter ≠ s.userIdCounter + 1
      omega
    show (s.createUser ins).1 ∈
      setAt User.id ((s.createUser ins).2.userIdCounter)
        (((s.createUser ins).2.createUser ins).1) ((s.createUser ins).2.users)
    exact (@mem_setAt_of_ne User User.id ((s.createUser ins).2.userIdCounter)
      (((s.createUser ins).2.createUser ins).1) ((s.createUser ins).1)
      ((s.createUser ins).2.users) rfl hne).mpr hmem
  · unfold DatabaseStorage.createUser dbInsertUser at hdb ⊢
    split at hdb
    · exact absurd hdb (by simp)
    · simp only [Except.ok.injEq, Prod.mk.injEq] at hdb
      obtain ⟨-, hdb'⟩ := hdb
      rw [← hdb']
      simp

/-- C7 witness: the theorem instantiated at the fresh in-memory store
and the empty relational store. -/
theorem claim_duplicate_username_asymmetry_witness :
    let ins : InsertUser := ⟨"alice", "pw", "a@b.c", none, none⟩
    (initStorage.createUser ins).1.id ≠ ((initStorage.createUser ins).2.createUser ins).1.id
    ∧ (initStorage.createUser ins).1 ∈ ((initStorage.createUser ins).2.createUser ins).2.users
    ∧ ((initStorage.createUser ins).2.createUser ins).1
        ∈ ((initStorage.createUser ins).2.createUser ins).2.users
    ∧ (initStorage.createUser ins).1.username = ins.username
    ∧ ((initStorage.createUser ins).2.createUser ins).1.username = ins.username
    ∧ DatabaseStorage.createUser ⟨[⟨1, "alice", "pw", "a@b.c", none, some 2000⟩], 2⟩ ins
        = .error .uniqueViolation :=
  claim_duplicate_username_asymmetry initStorage ⟨"alice", "pw", "a@b.c", none, none⟩
    dbEmpty ⟨1, "alice", "pw", "a@b.c", none, some 2000⟩
    ⟨[⟨1, "alice", "pw", "a@b.c", none, some 2000⟩], 2⟩ (by rfl)

/-- C8: updateUser with an email-only patch keeps username, password,
profilePicture, dailyWaterGoal and id of the target user, and leaves
every other user record unchanged. -/
theorem claim_updateUser_email_frame (s : MemStorage) (id : Nat) (e : String)
    (u : User) (h : s.getUser id = some u) :
    ((s.updateUser id { email := some e }).1.map User.username = some u.username)
    ∧ ((s.updateUser id { email := some e }).1.map User.password = some u.password)
    ∧ ((s.updateUser id { email := some e }).1.map User.profilePicture = some u.profilePicture)
    ∧ ((s.updateUser id { email := some e }).1.map User.dailyWaterGoal = some u.dailyWaterGoal)
    ∧ ((s.updateUser id { email := some e }).1.map User.id = some u.id)
    ∧ ((s.updateUser id { email := some e }).1.map User.email = some e)
    ∧ (∀ id', id' ≠ id →
        (s.updateUser id { email := some e }).2.getUser id' = s.getUser id') := by
  have huid : u.id = id := by
    have := List.find?_some h
    simpa using this
  unfold MemStorage.updateUser
  rw [h]
  refine ⟨rfl, rfl, rfl, rfl, rfl, rfl, ?_⟩
  intro id' hne
  show (setAt User.id id (mergeUser u { email := some e }) s.users).find?
      (fun x => decide (x.id = id')) = s.users.find? (fun x => decide (x.id = id'))
  exact find?_setAt_ne _ _ (by simp [mergeUser, huid]) hne

/-- C8 witness: the theorem instantiated at the fresh store and its seed
user with id 1. -/
theorem claim_updateUser_email_frame_witness :
    ((initStorage.updateUser 1 { email := some "x" }).1.map User.username
        = some (⟨1, "testuser", "password", "test@example.com", none, some 2000⟩ : User).username)
    ∧ ((initStorage.updateUser 1 { email := some "x" }).1.map User.password
        = some (⟨1, "testuser", "password", "test@example.com", none, some 2000⟩ : User).password)
    ∧ ((initStorage.updateUser 1 { email := some "x" }).1.map User.profilePicture
        = some (⟨1, "testuser", "password", "test@example.com", none, some 2000⟩ : User).profilePicture)
    ∧ ((initStorage.updateUser 1 { email := some "x" }).1.map User.dailyWaterGoal
        = some (⟨1, "testuser", "password", "test@example.com", none, some 2000⟩ : User).dailyWaterGoal)
    ∧ ((initStorage.updateUser 1 { email := some "x" }).1.map User.id
        = some (⟨1, "testuser", "password", "test@example.com", none, some 2000⟩ : User).id)
    ∧ ((initStorage.updateUser 1 { email := some "x" }).1.map User.email = some "x")
    ∧ (∀ id', id' ≠ 1 →
        (initStorage.updateUser 1 { email := some "x" }).2.getUser id'
          = initStorage.getUser id') :=
  claim_updateUser_email_frame initStorage 1 "x"
    ⟨1, "testuser", "password", "test@example.com", none, some 2000⟩ (by rfl)

/-- Iterated creation: run `create` n times from `s` and collect the
assigned ids in issuance order. -/
def iterIds (create : MemStorage → MemStorage × Nat) : Nat → MemStorage → List Nat
  | 0, _ => []
  | n + 1, s => (create s).2 :: iterIds create n (create s).1

theorem iterIds_eq_range' (create : MemStorage → MemStorage × Nat)
    (counterf : MemStorage → Nat) (P : MemStorage → Prop)
    (h : ∀ s, P s →
      (create s).2 = counterf s ∧ counterf (create s).1 = counterf s + 1 ∧ P (create s).1) :
    ∀ n s, P s → iterIds create n s = List.range' (counterf s) n := by
  intro n
  induction n with
  | zero => intro s _; rfl
  | succ n ih =>
    intro s hs
    obtain ⟨h1, h2, h3⟩ := h s hs
    simp only [iterIds]
    rw [h1, ih _ h3, h2]
    rfl

theorem likeCreate_spec (u0 : Nat) (s : MemStorage)
    (hP : ∀ l ∈ s.likes, l.postId < s.likeIdCounter) :
    (s.addLike ⟨u0, s.likeIdCounter⟩).1.id = s.likeIdCounter
    ∧ (s.addLike ⟨u0, s.likeIdCounter⟩).2.likeIdCounter = s.likeIdCounter + 1
    ∧ (∀ l ∈ (s.addLike ⟨u0, s.likeIdCounter⟩).2.likes,
        l.postId < (s.addLike ⟨u0, s.likeIdCounter⟩).2.likeIdCounter) := by
  have hf : s.likes.find?
      (fun l => decide (l.userId = u0 ∧ l.postId = s.likeIdCounter)) = none := by
    rw [List.find?_eq_none]
    intro l hl
    simp only [decide_eq_true_eq, not_and]
    intro _
    exact Nat.ne_of_lt (hP l hl)
  rw [addLike_eq_of_none hf]
  refine ⟨rfl, rfl, ?_⟩
  intro l hl
  rcases mem_of_mem_setAt hl with rfl | hl'
  · exact Nat.lt_succ_self _
  · exact Nat.lt_succ_of_lt (hP l hl')

/-- C2 counterexample: on a freshly constructed store the first
createUser call is assigned id 2, not 1, because the constructor seed
user already consumed id 1. -/
theorem claim_entity_id_sequences_counterexample :
    (initStorage.createUser ⟨"alice", "pw", "a@b.c", none, none⟩).1.id = 2
    ∧ iterIds (fun s => ((s.createUser ⟨"alice", "pw", "a@b.c", none, none⟩).2,
        (s.createUser ⟨"alice", "pw", "a@b.c", none, none⟩).1.id)) 1 initStorage ≠ [1] := by
  refine ⟨rfl, ?_⟩
  decide

/-- C2 amended: on a freshly constructed store, N creation calls on any
entity type other than User are assigned ids exactly 1..N in issuance
order; the constructor seed user takes id 1 and N subsequent createUser
calls are assigned exactly 2..N+1; removeLike never decrements the Like
counter, so ids are not reused after removal. -/
theorem claim_entity_id_sequences (n : Nat) (iu : InsertUser) (iw : InsertWaterIntake)
    (ia : InsertActivity) (ir : InsertRoute) (ip : InsertPost) (ic : InsertComment)
    (u0 t : Nat) :
    iterIds (fun s => ((s.createUser iu).2, (s.createUser iu).1.id)) n initStorage
        = List.range' 2 n
    ∧ iterIds (fun s => ((s.addWaterIntake iw t).2, (s.addWaterIntake iw t).1.id)) n initStorage
        = List.range' 1 n
    ∧ iterIds (fun s => ((s.createActivity ia t).2, (s.createActivity ia t).1.id)) n initStorage
        = List.range' 1 n
    ∧ iterIds (fun s => ((s.saveRoute ir).2, (s.saveRoute ir).1.id)) n initStorage
        = List.range' 1 n
    ∧ iterIds (fun s => ((s.createPost ip t).2, (s.createPost ip t).1.id)) n initStorage
        = List.range' 1 n
    ∧ iterIds (fun s => ((s.addComment ic t).2, (s.addComment ic t).1.id)) n initStorage
        = List.range' 1 n
    ∧ iterIds (fun s => ((s.addLike ⟨u0, s.likeIdCounter⟩).2,
        (s.addLike ⟨u0, s.likeIdCounter⟩).1.id)) n initStorage = List.range' 1 n
    ∧ (∀ s u p, (MemStorage.removeLike s u p).likeIdCounter = s.likeIdCounter)
    ∧ initStorage.users.map User.id = [1] := by
  refine ⟨?_, ?_, ?_, ?_, ?_, ?_, ?_, ?_, by decide⟩
  · exact iterIds_eq_range' _ MemStorage.userIdCounter (fun _ => True)
      (fun s _ => ⟨rfl, rfl, trivial⟩) n initStorage trivial
  · exact iterIds_eq_range' _ MemStorage.waterIntakeIdCounter (fun _ => True)
      (fun s _ => ⟨rfl, rfl, trivial⟩) n initStorage trivial
  · exact iterIds_eq_range' _ MemStorage.activityIdCounter (fun _ => True)
      (fun s _ => ⟨rfl, rfl, trivial⟩) n initStorage trivial
  · exact iterIds_eq_range' _ MemStorage.routeIdCounter (fun _ => True)
      (fun s _ => ⟨rfl, rfl, trivial⟩) n initStorage trivial
  · exact iterIds_eq_range' _ MemStorage.postIdCounter (fun _ => True)
      (fun s _ => ⟨rfl, rfl, trivial⟩) n initStorage trivial
  · exact iterIds_eq_range' _ MemStorage.commentIdCounter (fun _ => True)
      (fun s _ => ⟨rfl, rfl, trivial⟩) n initStorage trivial
  · refine iterIds_eq_range' _ MemStorage.likeIdCounter
      (fun s => ∀ l ∈ s.likes, l.postId < s.likeIdCounter)
      (fun s hP => ?_) n initStorage (by intro l hl; simp [initStorage, emptyStorage,
        MemStorage.createUser] at hl)
    obtain ⟨h1, h2, h3⟩ := likeCreate_spec u0 s hP
    exact ⟨h1, h2, h3⟩
  · intro s u p
    cases hf : s.likes.find? (fun l => decide (l.userId = u ∧ l.postId = p)) with
    | none => rw [removeLike_eq_of_none hf]
    | some l => rw [removeLike_eq_of_some hf]
